import Mathlib

/-!
Verification of the rule-matching and todo-instance lifecycle engine of the
`developer-todos` VSCode extension (sources: `src/todoManager.ts`,
`src/templateMatcher.ts`, `src/types.ts`).

The TypeScript core is shallowly embedded as pure Lean functions:

* JS `Map` objects become association lists (`List (String × _)`) with
  order-preserving insert (`mapSet`), lookup (`mapFind`) and delete
  (`mapDelete`) that mirror `Map.set` / `Map.get` / `Map.delete`.
* JS truthiness of optional strings (`undefined` and `""` are falsy) is
  `strTruthy`; `x || 'medium'` on an optional string is `jsStrOr`.
* `fs.readFileSync` is a parameter `readFile : String → Option String`
  (`none` = read failure); `path.relative(workspaceRoot, ·)` is a parameter
  `relOf : String → String`.
* The third-party `minimatch(path, pattern, { dot: true, matchBase: false })`
  call is modelled by `minimatchDot`: case-sensitive per-segment glob
  matching with `*`, `?` and the `**` globstar, where `dot: true` means
  dotfiles receive no special treatment (they are matched like any other
  name).  `String.prototype.includes` is `strContains`.
* Effects (`saveState` + firing the change event) are reflected in the
  `Bool` component of each operation's result: `true` means the operation
  persisted the snapshot and fired the change notification.
-/

namespace DeveloperTodos

/-- JS truthiness of an optional string: `undefined` and `""` are falsy. -/
def strTruthy : Option String → Bool
  | none => false
  | some s => s ≠ ""

/-- JS `x || d` for an optional string `x` and default `d`
(used for `template.priority || 'medium'`). -/
def jsStrOr (o : Option String) (d : String) : String :=
  match o with
  | none => d
  | some s => if s = "" then d else s

/-- Does `hay` start with `needle` (on character lists)? -/
def startsWithChars : List Char → List Char → Bool
  | [], _ => true
  | _ :: _, [] => false
  | a :: as, b :: bs => a = b && startsWithChars as bs

/-- Does `hay` contain `needle` as a contiguous run (on character lists)? -/
def containsChars (needle : List Char) : List Char → Bool
  | [] => needle.isEmpty
  | c :: rest => startsWithChars needle (c :: rest) || containsChars needle rest

/-- Model of JS `hay.includes(needle)`: literal substring containment. -/
def strContains (hay needle : String) : Bool :=
  containsChars needle.data hay.data

/-- Split a character list at `'/'` separators (model of `split('/')`,
used to compare path segments against glob pattern segments). -/
def splitSlash : List Char → List (List Char)
  | [] => [[]]
  | c :: rest =>
    let r := splitSlash rest
    if c = '/' then [] :: r
    else
      match r with
      | [] => [[c]]
      | s :: ss => (c :: s) :: ss

/-- Fuel-driven glob matching of one path segment against one pattern
segment: `*` matches any (possibly empty) run of characters, `?` matches
exactly one character, every other character matches itself,
case-sensitively.  Because the engine is invoked with `dot: true`, a
leading `.` in the segment is matched like any ordinary character.  Every
recursive call strictly shrinks `ps.length + cs.length`, so fuel
`ps.length + cs.length + 1` (supplied by `matchSeg`) is never exhausted;
the fuel only makes the recursion structural. -/
def matchSegF : Nat → List Char → List Char → Bool
  | 0, _, _ => false
  | _ + 1, [], [] => true
  | _ + 1, [], _ :: _ => false
  | n + 1, '*' :: ps, [] => matchSegF n ps []
  | n + 1, '*' :: ps, c :: cs =>
    matchSegF n ps (c :: cs) || matchSegF n ('*' :: ps) cs
  | _ + 1, '?' :: _, [] => false
  | n + 1, '?' :: ps, _ :: cs => matchSegF n ps cs
  | _ + 1, _ :: _, [] => false
  | n + 1, p :: ps, c :: cs => p = c && matchSegF n ps cs

/-- Glob matching of one segment (entry point supplying sufficient fuel). -/
def matchSeg (ps cs : List Char) : Bool :=
  matchSegF (ps.length + cs.length + 1) ps cs

/-- Fuel-driven glob matching of a path (as segments) against a pattern
(as segments): a pattern segment that is exactly `**` (the globstar)
matches zero or more whole path segments; every other pattern segment must
match exactly one path segment via `matchSeg`.  Every recursive call
strictly shrinks `ps.length + ss.length`, so the fuel supplied by
`matchSegs` is never exhausted. -/
def matchSegsF : Nat → List (List Char) → List (List Char) → Bool
  | 0, _, _ => false
  | _ + 1, [], [] => true
  | _ + 1, [], _ :: _ => false
  | n + 1, p :: ps, [] => p = ['*', '*'] && matchSegsF n ps []
  | n + 1, p :: ps, s :: ss =>
    if p = ['*', '*'] then matchSegsF n ps (s :: ss) || matchSegsF n (p :: ps) ss
    else matchSeg p s && matchSegsF n ps ss

/-- Glob matching of segment lists (entry point supplying sufficient fuel). -/
def matchSegs (ps ss : List (List Char)) : Bool :=
  matchSegsF (ps.length + ss.length + 1) ps ss

/-- Model of the library call `minimatch(path, pattern, { dot: true,
matchBase: false })` as used by the extension: case-sensitive glob matching
with literal path separators, dotfile matching enabled. -/
def minimatchDot (path pattern : String) : Bool :=
  matchSegs (splitSlash pattern.data) (splitSlash path.data)

/-- The suffix of `cs` starting at its last `'.'`, if any. -/
def extAux : List Char → Option (List Char)
  | [] => none
  | c :: cs =>
    match extAux cs with
    | some e => some e
    | none => if c = '.' then some (c :: cs) else none

/-- Model of Node's `path.extname`: the extension of the basename, from its
last dot (inclusive); empty when there is no dot or when the only dot is the
leading character of the basename (dotfiles have no extension). -/
def extname (filePath : String) : String :=
  let base := (splitSlash filePath.data).getLastD []
  match extAux base with
  | none => ""
  | some e => if e.length = base.length then "" else String.mk e

/-- Lower-case every character of a string (model of `toLowerCase()` on
ASCII extension strings). -/
def lowerStr (s : String) : String :=
  String.mk (s.data.map Char.toLower)

/-! ### Association-list model of JS `Map` -/

/-- `Map.get`: the value stored at the first occurrence of key `k`. -/
def mapFind {α : Type} : List (String × α) → String → Option α
  | [], _ => none
  | (k', v) :: rest, k => if k' = k then some v else mapFind rest k

/-- `Map.set`: replace the value at key `k` in place, or append a new entry
at the end (JS `Map` preserves insertion order). -/
def mapSet {α : Type} : List (String × α) → String → α → List (String × α)
  | [], k, v => [(k, v)]
  | (k', v') :: rest, k, v =>
    if k' = k then (k, v) :: rest else (k', v') :: mapSet rest k v

/-- `Map.delete`: remove the entry at key `k` (first occurrence). -/
def mapDelete {α : Type} : List (String × α) → String → List (String × α)
  | [], _ => []
  | (k', v') :: rest, k => if k' = k then rest else (k', v') :: mapDelete rest k

/-- Model of `[...new Set([...xs])]`: deduplicate, keeping the first
occurrence of each element, preserving insertion order. -/
def jsSetDedup (l : List String) : List String :=
  l.foldl (fun acc x => if acc.contains x then acc else acc ++ [x]) []

/-! ### Data model (`src/types.ts`) -/

/-- `TodoTemplate` from `types.ts`: a declarative rule loaded from
`.todo.json`.  Optional fields are `Option`s; the optional boolean
`branchLevel` is modelled as a `Bool` (absent ≡ `false`: both `=== true`
and JS truthiness agree with this collapse). -/
structure TodoTemplate where
  id : String
  name : String
  description : String
  applyTo : Option String := none
  fileContains : Option String := none
  excludeFileContains : Option String := none
  priority : Option String := none
  branchLevel : Bool := false
  aiInstruction : Option String := none
deriving Repr, DecidableEq

/-- `TodoInstance` from `types.ts`: a materialized, stateful todo derived
from a template and a matching file or branch. -/
structure TodoInstance where
  id : String
  templateId : String
  name : String
  description : String
  filePath : Option String := none
  relativePath : Option String := none
  priority : String
  completed : Bool
  completedAt : Option String := none
  ignored : Bool
  ignoredAt : Option String := none
  branch : String
  branchLevel : Bool := false
  triggeringFiles : Option (List String) := none
  aiInstruction : Option String := none
deriving Repr, DecidableEq

/-- One persisted todo record inside `TodoState` from `types.ts`
(the snapshot written to workspace storage by `saveState`). -/
structure PersistedTodo where
  completed : Bool
  completedAt : Option String
  ignored : Bool
  ignoredAt : Option String
  filePath : Option String
  templateId : String
  branchLevel : Bool
  triggeringFiles : Option (List String)
deriving Repr, DecidableEq

/-- The per-branch todo map (`Map<string, TodoInstance>`). -/
abbrev BranchTodos := List (String × TodoInstance)

/-- The manager's in-memory store: branch → todoId → TodoInstance. -/
abbrev TodoStore := List (String × BranchTodos)

/-- The persisted snapshot: branch → todoId → persisted fields. -/
abbrev TodoState := List (String × List (String × PersistedTodo))

/-! ### Matcher (`src/templateMatcher.ts`) -/

/-- `TemplateMatcher.matchesTemplate`: whether a file (relative path plus
content) matches one template.  Branch-level templates and templates
without an `applyTo` pattern never match an individual file; otherwise the
path must glob-match `applyTo`, the content must contain `fileContains`
when set, and must not contain `excludeFileContains` when set. -/
def matchesTemplate (relativePath fileContent : String) (t : TodoTemplate) : Bool :=
  if t.branchLevel || !strTruthy t.applyTo then false
  else
    let pathMatches := minimatchDot relativePath (t.applyTo.getD "")
    if !pathMatches then false
    else if strTruthy t.fileContains &&
        !strContains fileContent (t.fileContains.getD "") then false
    else if strTruthy t.excludeFileContains &&
        strContains fileContent (t.excludeFileContains.getD "") then false
    else true

/-- `TemplateMatcher.getMatchingTemplates`: all templates matching a file,
in input order. -/
def getMatchingTemplates (relativePath fileContent : String)
    (templates : List TodoTemplate) : List TodoTemplate :=
  templates.filter (matchesTemplate relativePath fileContent)

/-- `TemplateMatcher.pathMatchesAnyTemplate`: path-only pre-check over the
non-branch-level templates that carry an `applyTo` pattern.  Takes no file
content at all. -/
def pathMatchesAnyTemplate (relativePath : String)
    (templates : List TodoTemplate) : Bool :=
  (templates.filter (fun t => strTruthy t.applyTo && !t.branchLevel)).any
    (fun t => minimatchDot relativePath (t.applyTo.getD ""))

/-- The composite cheap pre-check performed by
`TodoManager.createTodosForFile` before reading file content: the matcher's
path-only check over all templates, or — to also cover branch-level
aggregation — the same check over the branch-level templates that carry an
`applyTo` pattern, re-tagged as non-branch-level. -/
def pathPrecheck (relativePath : String) (templates : List TodoTemplate) : Bool :=
  pathMatchesAnyTemplate relativePath templates ||
    pathMatchesAnyTemplate relativePath
      ((templates.filter (fun t => t.branchLevel && strTruthy t.applyTo)).map
        (fun t => { t with branchLevel := false }))

/-! ### TodoManager (`src/todoManager.ts`) -/

/-- The fixed binary-extension list of `TodoManager.isBinaryFile`. -/
def binaryExtensions : List String :=
  [".png", ".jpg", ".jpeg", ".gif", ".bmp", ".ico", ".svg",
   ".pdf", ".zip", ".tar", ".gz", ".rar", ".7z",
   ".exe", ".dll", ".so", ".dylib",
   ".mp3", ".mp4", ".avi", ".mov", ".wav",
   ".ttf", ".otf", ".woff", ".woff2", ".eot",
   ".class", ".jar", ".war"]

/-- `TodoManager.isBinaryFile`: the file's extension, lower-cased, is in
the fixed binary-extension list. -/
def isBinaryFile (filePath : String) : Bool :=
  binaryExtensions.contains (lowerStr (extname filePath))

/-- `TodoManager.loadTemplates`, on the parsed configuration input.  The
outer `Option` is `none` when `.todo.json` is missing or fails to parse
(JSON error); the inner `Option` is `none` when the parsed document has no
`templates` array.  In both failure cases the template set becomes empty
and the result flag is `false`; otherwise the template list is accepted
as-is (no per-entry validation) and the flag is `true`. -/
def loadTemplates (cfg : Option (Option (List TodoTemplate))) :
    List TodoTemplate × Bool :=
  match cfg with
  | none => ([], false)
  | some none => ([], false)
  | some (some ts) => (ts, true)

/-- The manager's mutable fields that the claims concern: the current
template set and the in-memory per-branch instance store. -/
structure ManagerState where
  templates : List TodoTemplate
  todos : TodoStore
deriving Repr, DecidableEq

/-- `TodoManager.loadTemplates` viewed as a transition on the manager
state: it replaces `templates` (per `loadTemplates`) and touches nothing
else — in particular it does not prune `todos`. -/
def loadTemplatesM (s : ManagerState) (cfg : Option (Option (List TodoTemplate))) :
    ManagerState × Bool :=
  let r := loadTemplates cfg
  ({ s with templates := r.1 }, r.2)

/-- The record `TodoManager.saveState` writes for one instance: only
status fields, `filePath`, `templateId`, `branchLevel` and
`triggeringFiles` (display fields are dropped). -/
def persistTodo (todo : TodoInstance) : PersistedTodo :=
  { completed := todo.completed, completedAt := todo.completedAt,
    ignored := todo.ignored, ignoredAt := todo.ignoredAt,
    filePath := todo.filePath, templateId := todo.templateId,
    branchLevel := todo.branchLevel,
    triggeringFiles := todo.triggeringFiles }

/-- `TodoManager.saveState`: serialize the in-memory store to the persisted
snapshot. -/
def saveState (store : TodoStore) : TodoState :=
  store.map (fun p => (p.1, p.2.map (fun q => (q.1, persistTodo q.2))))

/-- The instance rebuilt by `TodoManager.loadState` for one persisted todo
record, given the template found for its `templateId`. -/
def restoreInstance (relOf : String → String) (branch todoId : String)
    (d : PersistedTodo) (template : TodoTemplate) : TodoInstance :=
  let isBranchLevel := d.branchLevel || !strTruthy d.filePath
  { id := todoId, templateId := template.id, name := template.name,
    description := template.description, filePath := d.filePath,
    relativePath := if isBranchLevel then none else d.filePath.map relOf,
    priority := jsStrOr template.priority "medium",
    completed := d.completed, completedAt := d.completedAt,
    ignored := d.ignored, ignoredAt := d.ignoredAt, branch := branch,
    branchLevel := isBranchLevel, triggeringFiles := d.triggeringFiles,
    aiInstruction := template.aiInstruction }

/-- One branch of `TodoManager.loadState`: records whose `templateId` no
longer resolves in the current template set are skipped; the rest are
rebuilt via `restoreInstance`. -/
def loadBranch (relOf : String → String) (templates : List TodoTemplate)
    (branch : String) (btodos : List (String × PersistedTodo)) : BranchTodos :=
  btodos.filterMap (fun q =>
    (templates.find? (fun tp => tp.id == q.2.templateId)).map
      (fun template => (q.1, restoreInstance relOf branch q.1 q.2 template)))

/-- `TodoManager.loadState`: merge every persisted branch into the store
(each branch's map is rebuilt from scratch and `set` into the store). -/
def loadState (relOf : String → String) (templates : List TodoTemplate)
    (store : TodoStore) (state : TodoState) : TodoStore :=
  state.foldl (fun acc p => mapSet acc p.1 (loadBranch relOf templates p.1 p.2)) store

/-- The per-template loop body of `TodoManager.createTodosForFile`
(template skipped unless its pattern and content predicates hold; then a
branch-level template grows/creates the `branch:{id}` aggregate and a
file-scoped template creates `{id}:{relativePath}` unless present). -/
def evalStep (branch filePath relativePath content : String)
    (acc : BranchTodos × Bool) (t : TodoTemplate) : BranchTodos × Bool :=
  if !strTruthy t.applyTo then acc
  else if !minimatchDot relativePath (t.applyTo.getD "") then acc
  else if strTruthy t.fileContains &&
      !strContains content (t.fileContains.getD "") then acc
  else if strTruthy t.excludeFileContains &&
      strContains content (t.excludeFileContains.getD "") then acc
  else if t.branchLevel then
    let todoId := "branch:" ++ t.id
    match mapFind acc.1 todoId with
    | none =>
      (mapSet acc.1 todoId
        { id := todoId, templateId := t.id, name := t.name,
          description := t.description, priority := jsStrOr t.priority "medium",
          completed := false, ignored := false, branch := branch,
          branchLevel := true, triggeringFiles := some [relativePath],
          aiInstruction := t.aiInstruction }, true)
    | some todo =>
      let tf := todo.triggeringFiles.getD []
      if tf.contains relativePath then acc
      else
        (mapSet acc.1 todoId
          { todo with triggeringFiles := some (tf ++ [relativePath]) }, true)
  else
    let todoId := t.id ++ ":" ++ relativePath
    if (mapFind acc.1 todoId).isSome then acc
    else
      (mapSet acc.1 todoId
        { id := todoId, templateId := t.id, name := t.name,
          description := t.description, filePath := some filePath,
          relativePath := some relativePath,
          priority := jsStrOr t.priority "medium", completed := false,
          ignored := false, branch := branch,
          aiInstruction := t.aiInstruction }, true)

/-- `TodoManager.createTodosForFile`: skip binary files; run the cheap
path-only pre-check before reading content; treat an unreadable file as a
no-op; otherwise fold the per-template loop over the branch's todo map and
report (`Bool`) whether any mutation occurred (which is when the original
persists the snapshot and fires the change notification). -/
def createTodosForFile (relOf : String → String)
    (readFile : String → Option String) (templates : List TodoTemplate)
    (store : TodoStore) (branch filePath : String) : TodoStore × Bool :=
  let relativePath := relOf filePath
  if isBinaryFile filePath then (store, false)
  else if !pathPrecheck relativePath templates then (store, false)
  else
    match readFile filePath with
    | none => (store, false)
    | some content =>
      let branchTodos := (mapFind store branch).getD []
      let res := templates.foldl
        (evalStep branch filePath relativePath content) (branchTodos, false)
      (mapSet store branch res.1, res.2)

/-- `TodoManager.findTriggeringFiles`: the relative paths of the changed
files that match a branch-level template's pattern and content predicates
(binary and unreadable files are skipped; content is only read when a
content predicate is present). -/
def findTriggeringFiles (relOf : String → String)
    (readFile : String → Option String) (changedFiles : List String)
    (t : TodoTemplate) : List String :=
  if !strTruthy t.applyTo then []
  else
    changedFiles.foldl (fun acc filePath =>
      if isBinaryFile filePath then acc
      else
        let relativePath := relOf filePath
        if !minimatchDot relativePath (t.applyTo.getD "") then acc
        else if strTruthy t.fileContains || strTruthy t.excludeFileContains then
          match readFile filePath with
          | none => acc
          | some content =>
            if strTruthy t.fileContains &&
                !strContains content (t.fileContains.getD "") then acc
            else if strTruthy t.excludeFileContains &&
                strContains content (t.excludeFileContains.getD "") then acc
            else acc ++ [relativePath]
        else acc ++ [relativePath]) []

/-- The per-template loop body of `TodoManager.createBranchLevelTodos`:
an existing `branch:{id}` aggregate is only refreshed (its
`triggeringFiles` unioned with the newly found ones, counting as a
mutation only when the set grew); a missing aggregate is created, except
that a template with an `applyTo` pattern and no triggering file creates
nothing. -/
def blStep (relOf : String → String) (readFile : String → Option String)
    (changedFiles : List String) (branch : String)
    (acc : BranchTodos × Bool) (t : TodoTemplate) : BranchTodos × Bool :=
  let todoId := "branch:" ++ t.id
  match mapFind acc.1 todoId with
  | some existingTodo =>
    if strTruthy t.applyTo then
      let newTriggeringFiles := findTriggeringFiles relOf readFile changedFiles t
      if newTriggeringFiles.length > 0 then
        let existingFiles := existingTodo.triggeringFiles.getD []
        let allFiles := jsSetDedup (existingFiles ++ newTriggeringFiles)
        if allFiles.length ≠ existingFiles.length then
          (mapSet acc.1 todoId
            { existingTodo with triggeringFiles := some allFiles }, true)
        else acc
      else acc
    else acc
  | none =>
    let triggeringFiles : Option (List String) :=
      if strTruthy t.applyTo
      then some (findTriggeringFiles relOf readFile changedFiles t) else none
    if strTruthy t.applyTo && (triggeringFiles.getD []).isEmpty then acc
    else
      (mapSet acc.1 todoId
        { id := todoId, templateId := t.id, name := t.name,
          description := t.description, priority := jsStrOr t.priority "medium",
          completed := false, ignored := false, branch := branch,
          branchLevel := true, triggeringFiles := triggeringFiles,
          aiInstruction := t.aiInstruction }, true)

/-- `TodoManager.createBranchLevelTodos`: fold `blStep` over the templates
that are explicitly branch-level or have no `applyTo` pattern; the `Bool`
reports whether any mutation occurred (= persist + notify). -/
def createBranchLevelTodos (relOf : String → String)
    (readFile : String → Option String) (changedFiles : List String)
    (templates : List TodoTemplate) (store : TodoStore) (branch : String) :
    TodoStore × Bool :=
  let branchTodos := (mapFind store branch).getD []
  let branchLevelTemplates :=
    templates.filter (fun t => t.branchLevel || !strTruthy t.applyTo)
  let res := branchLevelTemplates.foldl
    (blStep relOf readFile changedFiles branch) (branchTodos, false)
  (mapSet store branch res.1, res.2)

/-- `TodoManager.completeTodo`: if the branch and id resolve, set
`completed`/`completedAt` (leaving the ignore fields untouched), then
persist and notify (`true`); otherwise return early (`false`). -/
def completeTodo (now : String) (store : TodoStore) (branch todoId : String) :
    TodoStore × Bool :=
  match mapFind store branch with
  | none => (store, false)
  | some branchTodos =>
    match mapFind branchTodos todoId with
    | none => (store, false)
    | some todo =>
      (mapSet store branch (mapSet branchTodos todoId
        { todo with completed := true, completedAt := some now }), true)

/-- `TodoManager.reopenTodo`: clear `completed`/`completedAt` when the id
resolves, then persist and notify; early return otherwise. -/
def reopenTodo (store : TodoStore) (branch todoId : String) :
    TodoStore × Bool :=
  match mapFind store branch with
  | none => (store, false)
  | some branchTodos =>
    match mapFind branchTodos todoId with
    | none => (store, false)
    | some todo =>
      (mapSet store branch (mapSet branchTodos todoId
        { todo with completed := false, completedAt := none }), true)

/-- `TodoManager.ignoreTodo`: set `ignored`/`ignoredAt` when the id
resolves (leaving the completion fields untouched), then persist and
notify; early return otherwise. -/
def ignoreTodo (now : String) (store : TodoStore) (branch todoId : String) :
    TodoStore × Bool :=
  match mapFind store branch with
  | none => (store, false)
  | some branchTodos =>
    match mapFind branchTodos todoId with
    | none => (store, false)
    | some todo =>
      (mapSet store branch (mapSet branchTodos todoId
        { todo with ignored := true, ignoredAt := some now }), true)

/-- `TodoManager.unignoreTodo`: clear `ignored`/`ignoredAt` when the id
resolves, then persist and notify; early return otherwise. -/
def unignoreTodo (store : TodoStore) (branch todoId : String) :
    TodoStore × Bool :=
  match mapFind store branch with
  | none => (store, false)
  | some branchTodos =>
    match mapFind branchTodos todoId with
    | none => (store, false)
    | some todo =>
      (mapSet store branch (mapSet branchTodos todoId
        { todo with ignored := false, ignoredAt := none }), true)

/-- `TodoManager.clearBranchTodos`: delete the branch entry and always
persist and notify. -/
def clearBranchTodos (store : TodoStore) (branch : String) :
    TodoStore × Bool :=
  (mapDelete store branch, true)

/-! ### Association-list lemmas -/

theorem mapFind_mapSet {α : Type} (m : List (String × α)) (k k' : String) (v : α) :
    mapFind (mapSet m k v) k' = if k = k' then some v else mapFind m k' := by
  induction m with
  | nil => by_cases h : k = k' <;> simp [mapSet, mapFind, h]
  | cons hd tl ih =>
    obtain ⟨a, b⟩ := hd
    by_cases hak : a = k
    · by_cases hkk : k = k' <;> simp [mapSet, mapFind, hak, hkk]
    · by_cases hak' : a = k'
      · subst hak'
        have hka : ¬k = a := fun h => hak h.symm
        simp [mapSet, mapFind, hak, hka]
      · simp [mapSet, mapFind, hak, hak', ih]

theorem mapFind_mapSet_self {α : Type} (m : List (String × α)) (k : String) (v : α) :
    mapFind (mapSet m k v) k = some v := by
  simp [mapFind_mapSet]

theorem mapFind_mapSet_ne {α : Type} (m : List (String × α)) {k k' : String}
    (v : α) (h : k ≠ k') :
    mapFind (mapSet m k v) k' = mapFind m k' := by
  simp [mapFind_mapSet, h]

theorem mapSet_eq_of_find {α : Type} {m : List (String × α)} {k : String} {v : α}
    (h : mapFind m k = some v) : mapSet m k v = m := by
  induction m with
  | nil => simp [mapFind] at h
  | cons hd tl ih =>
    obtain ⟨a, b⟩ := hd
    by_cases hak : a = k
    · simp [mapFind, hak] at h
      simp [mapSet, hak, h]
    · simp [mapFind, hak] at h
      simp [mapSet, hak, ih h]

theorem mem_mapSet {α : Type} {m : List (String × α)} {k : String} {v : α}
    {p : String × α} (h : p ∈ mapSet m k v) : p = (k, v) ∨ p ∈ m := by
  induction m with
  | nil => simp [mapSet] at h; simp [h]
  | cons hd tl ih =>
    obtain ⟨a, b⟩ := hd
    by_cases hak : a = k
    · simp [mapSet, hak] at h
      rcases h with h | h
      · left; simp [h]
      · right; simp [h]
    · simp [mapSet, hak] at h
      rcases h with h | h
      · right; simp [h]
      · rcases ih h with h' | h'
        · left; exact h'
        · right; simp [h']

theorem keys_nodup_mapSet {α : Type} {m : List (String × α)} (k : String) (v : α)
    (h : (m.map Prod.fst).Nodup) : ((mapSet m k v).map Prod.fst).Nodup := by
  induction m with
  | nil => simp [mapSet]
  | cons hd tl ih =>
    obtain ⟨a, b⟩ := hd
    simp only [List.map_cons, List.nodup_cons] at h
    by_cases hak : a = k
    · subst hak
      simpa [mapSet] using h
    · have htl := ih h.2
      simp only [mapSet, if_neg hak, List.map_cons, List.nodup_cons]
      refine ⟨?_, htl⟩
      intro hmem
      rcases List.mem_map.1 hmem with ⟨p, hp, hpa⟩
      rcases mem_mapSet hp with h' | h'
      · exact hak (by rw [h'] at hpa; simpa using hpa.symm)
      · exact h.1 (hpa ▸ List.mem_map_of_mem Prod.fst h')

theorem countP_eq_one_of_find {α : Type} {m : List (String × α)} {k : String} {v : α}
    (hnd : (m.map Prod.fst).Nodup) (h : mapFind m k = some v) :
    m.countP (fun p => p.1 == k) = 1 := by
  induction m with
  | nil => simp [mapFind] at h
  | cons hd tl ih =>
    obtain ⟨a, b⟩ := hd
    simp only [List.map_cons, List.nodup_cons] at hnd
    by_cases hak : a = k
    · subst hak
      have : tl.countP (fun p => p.1 == a) = 0 := by
        rw [List.countP_eq_zero]
        intro p hp
        simp only [beq_iff_eq]
        intro hpa
        exact hnd.1 (hpa ▸ List.mem_map_of_mem Prod.fst hp)
      simp [List.countP_cons, this]
    · simp only [mapFind, if_neg hak] at h
      have := ih hnd.2 h
      simp [List.countP_cons, this, hak]

theorem mapFind_eq_none_of_not_mem {α : Type} {m : List (String × α)} {k : String}
    (h : k ∉ m.map Prod.fst) : mapFind m k = none := by
  induction m with
  | nil => simp [mapFind]
  | cons hd tl ih =>
    obtain ⟨a, b⟩ := hd
    simp only [List.map_cons, List.mem_cons, not_or] at h
    simp [mapFind, Ne.symm h.1, ih h.2]

theorem mapSet_eq_append_of_not_mem {α : Type} {m : List (String × α)} {k : String}
    (v : α) (h : k ∉ m.map Prod.fst) : mapSet m k v = m ++ [(k, v)] := by
  induction m with
  | nil => simp [mapSet]
  | cons hd tl ih =>
    obtain ⟨a, b⟩ := hd
    simp only [List.map_cons, List.mem_cons, not_or] at h
    simp [mapSet, Ne.symm h.1, ih h.2]

/-! ### Claim theorems -/

/-- C1 (counterexample): a branch-level template that carries a
`pathPattern`, evaluated on a file whose path glob-matches the pattern and
whose content satisfies the (absent) content predicates, is nevertheless
NOT matched by the matcher — `matchesTemplate` rejects every branch-level
template outright, contradicting the claim's "in particular" clause. -/
theorem matchesTemplate_branchLevel_cex :
    (let t : TodoTemplate :=
      { id := "go-review", name := "n", description := "d",
        applyTo := some "src/**/*.go", branchLevel := true }
     t.branchLevel = true ∧ strTruthy t.applyTo = true ∧
     minimatchDot "src/a.go" (t.applyTo.getD "") = true ∧
     strTruthy t.fileContains = false ∧ strTruthy t.excludeFileContains = false ∧
     matchesTemplate "src/a.go" "package main" t = false) := by decide

/-- C1 (amended): `matchesTemplate` returns `true` exactly when the
template is NOT branch-level, carries a (non-empty) `pathPattern` that the
relative path glob-matches (case-sensitive, dotfiles matched), the content
contains `contentMustInclude` whenever that is set, and does not contain
`contentMustExclude` whenever that is set; so it returns `false` for every
branch-level template, even one carrying a `pathPattern`. -/
theorem matchesTemplate_characterization (rel content : String) (t : TodoTemplate) :
    matchesTemplate rel content t = true ↔
      (t.branchLevel = false ∧ strTruthy t.applyTo = true ∧
       minimatchDot rel (t.applyTo.getD "") = true ∧
       (strTruthy t.fileContains = true →
         strContains content (t.fileContains.getD "") = true) ∧
       (strTruthy t.excludeFileContains = true →
         strContains content (t.excludeFileContains.getD "") = false)) := by
  unfold matchesTemplate
  rcases hb : t.branchLevel <;> rcases ha : strTruthy t.applyTo <;>
    rcases hp : minimatchDot rel (t.applyTo.getD "") <;>
      rcases hf : strTruthy t.fileContains <;>
        rcases he : strTruthy t.excludeFileContains <;>
          rcases hc : strContains content (t.fileContains.getD "") <;>
            rcases hx : strContains content (t.excludeFileContains.getD "") <;>
              simp [hb, ha, hp, hf, he, hc, hx]

/-- C1 (witness): the characterization applied at a concrete non-branch-level
template and a concrete matching file. -/
theorem matchesTemplate_characterization_witness :
    matchesTemplate "cls/Foo.cls" "x @AuraEnabled y"
        { id := "t1", name := "n", description := "d",
          applyTo := some "**/*.cls", fileContains := some "@AuraEnabled" } = true ↔
      (false = false ∧ strTruthy (some "**/*.cls") = true ∧
       minimatchDot "cls/Foo.cls" ((some "**/*.cls").getD "") = true ∧
       (strTruthy (some "@AuraEnabled") = true →
         strContains "x @AuraEnabled y" ((some "@AuraEnabled").getD "") = true) ∧
       (strTruthy (none : Option String) = true →
         strContains "x @AuraEnabled y" ((none : Option String).getD "") = false)) :=
  matchesTemplate_characterization "cls/Foo.cls" "x @AuraEnabled y"
    { id := "t1", name := "n", description := "d",
      applyTo := some "**/*.cls", fileContains := some "@AuraEnabled" }

/-- C2 (counterexample): `loadTemplates` accepts a configuration whose only
entry has an empty `id`, `name` and `description` and lacks a `pathPattern`
while `branchLevel` is not true, and also accepts a configuration with two
entries sharing the same `id` — no per-entry validation is performed. -/
theorem loadTemplates_accepts_invalid_cex :
    (let bad : TodoTemplate := { id := "", name := "", description := "" }
     loadTemplates (some (some [bad])) = ([bad], true)) ∧
    (let dup : TodoTemplate :=
      { id := "x", name := "n", description := "d", applyTo := some "**" }
     loadTemplates (some (some [dup, dup])) = ([dup, dup], true)) := by decide

/-- C2 (amended): template load fails only when the configuration file is
missing/unparseable or the `templates` array is absent (in which case the
template set becomes empty); any parseable `templates` array is accepted
wholesale, with no per-entry validation of `id`/`name`/`description`,
no duplicate-id check, and no `pathPattern`-required check. -/
theorem loadTemplates_characterization (cfg : Option (Option (List TodoTemplate))) :
    ((loadTemplates cfg).2 = false ↔ cfg = none ∨ cfg = some none) ∧
    ((loadTemplates cfg).2 = false → (loadTemplates cfg).1 = []) ∧
    (∀ ts, cfg = some (some ts) → loadTemplates cfg = (ts, true)) := by
  rcases cfg with _ | _ | ts <;> simp [loadTemplates]

/-- C2 (witness): the characterization applied to the concrete
configuration whose `templates` field is absent. -/
theorem loadTemplates_characterization_witness :
    ((loadTemplates (some none)).2 = false ↔
      (some none : Option (Option (List TodoTemplate))) = none ∨
        (some none : Option (Option (List TodoTemplate))) = some none) ∧
    ((loadTemplates (some none)).2 = false → (loadTemplates (some none)).1 = []) ∧
    (∀ ts, (some none : Option (Option (List TodoTemplate))) = some (some ts) →
      loadTemplates (some none) = (ts, true)) :=
  loadTemplates_characterization (some none)

/-- C5 (counterexample): completing a pending todo and then ignoring it
leaves BOTH `completedAt` and `ignoredAt` set on the reachable instance —
neither transition clears the other's timestamp. -/
theorem complete_then_ignore_both_timestamps_cex :
    (let todo0 : TodoInstance :=
      { id := "t1:a.cls", templateId := "t1", name := "n", description := "d",
        priority := "high", completed := false, ignored := false, branch := "main" }
     let store0 : TodoStore := [("main", [("t1:a.cls", todo0)])]
     let store1 := (completeTodo "2024-01-01" store0 "main" "t1:a.cls").1
     let store2 := (ignoreTodo "2024-01-02" store1 "main" "t1:a.cls").1
     (mapFind ((mapFind store2 "main").getD []) "t1:a.cls").map
        (fun td => (td.completed, td.completedAt, td.ignored, td.ignoredAt)) =
       some (true, some "2024-01-01", true, some "2024-01-02")) := by decide

/-- C5 (amended): transitioning an instance to completed sets
`completed`/`completedAt` and leaves `ignored`/`ignoredAt` untouched, and
transitioning it to ignored sets `ignored`/`ignoredAt` and leaves
`completed`/`completedAt` untouched; only `reopen` clears `completedAt` and
only `unignore` clears `ignoredAt`, so both timestamps can be set at once. -/
theorem completeTodo_ignoreTodo_keep_other_timestamp
    (now : String) (store : TodoStore) (branch todoId : String)
    (branchTodos : BranchTodos) (todo : TodoInstance)
    (h1 : mapFind store branch = some branchTodos)
    (h2 : mapFind branchTodos todoId = some todo) :
    mapFind ((mapFind (completeTodo now store branch todoId).1 branch).getD [])
        todoId = some { todo with completed := true, completedAt := some now } ∧
    mapFind ((mapFind (ignoreTodo now store branch todoId).1 branch).getD [])
        todoId = some { todo with ignored := true, ignoredAt := some now } ∧
    mapFind ((mapFind (reopenTodo store branch todoId).1 branch).getD [])
        todoId = some { todo with completed := false, completedAt := none } ∧
    mapFind ((mapFind (unignoreTodo store branch todoId).1 branch).getD [])
        todoId = some { todo with ignored := false, ignoredAt := none } := by
  simp [completeTodo, ignoreTodo, reopenTodo, unignoreTodo, h1, h2,
    mapFind_mapSet_self]

/-- C5 (witness): the timestamp behavior at a concrete store. -/
theorem completeTodo_ignoreTodo_keep_other_timestamp_witness :
    (let todo0 : TodoInstance :=
      { id := "x", templateId := "t1", name := "n", description := "d",
        priority := "low", completed := false, completedAt := none,
        ignored := true, ignoredAt := some "2024-03-03", branch := "main" }
     let store0 : TodoStore := [("main", [("x", todo0)])]
     mapFind ((mapFind (completeTodo "2024-05-05" store0 "main" "x").1 "main").getD [])
        "x" = some { todo0 with completed := true, completedAt := some "2024-05-05" }) := by
  intro todo0 store0
  exact (completeTodo_ignoreTodo_keep_other_timestamp "2024-05-05" store0 "main" "x"
    [("x", todo0)] todo0 rfl rfl).1

/-- C6 (counterexample): invoking a status-change verb on a nonexistent
branch or instance id returns early: the state snapshot is NOT persisted
and no change notification fires (the mutation flag is `false`),
contradicting the claim that every invocation persists and notifies. -/
theorem completeTodo_missing_no_persist_cex :
    completeTodo "now" [] "main" "x" = ([], false) ∧
    ignoreTodo "now" [("main", [])] "main" "x" = ([("main", [])], false) := by decide

/-- C6 (amended): `complete`, `reopen`, `ignore` and `unignore` persist and
notify exactly when the named branch and instance id both resolve (on a
miss they return early with no persist and no notification); only
`clearBranch` always persists and notifies, even when the branch is
absent. -/
theorem status_verbs_persist_iff (now : String) (store : TodoStore)
    (branch todoId : String) :
    ((completeTodo now store branch todoId).2 = true ↔
      ((mapFind store branch).bind (fun bt => mapFind bt todoId)).isSome = true) ∧
    ((reopenTodo store branch todoId).2 = true ↔
      ((mapFind store branch).bind (fun bt => mapFind bt todoId)).isSome = true) ∧
    ((ignoreTodo now store branch todoId).2 = true ↔
      ((mapFind store branch).bind (fun bt => mapFind bt todoId)).isSome = true) ∧
    ((unignoreTodo store branch todoId).2 = true ↔
      ((mapFind store branch).bind (fun bt => mapFind bt todoId)).isSome = true) ∧
    (clearBranchTodos store branch).2 = true := by
  rcases h1 : mapFind store branch with _ | bt
  · simp [completeTodo, reopenTodo, ignoreTodo, unignoreTodo,
      clearBranchTodos, h1]
  · rcases h2 : mapFind bt todoId with _ | todo <;>
      simp [completeTodo, reopenTodo, ignoreTodo, unignoreTodo,
        clearBranchTodos, h1, h2]

/-- The matcher's path-only check, characterized: some non-branch-level
template with a (truthy) pattern glob-matches the path. -/
theorem pathMatchesAnyTemplate_iff (rel : String)
    (templates : List TodoTemplate) :
    pathMatchesAnyTemplate rel templates = true ↔
      ∃ t ∈ templates, strTruthy t.applyTo = true ∧ t.branchLevel = false ∧
        minimatchDot rel (t.applyTo.getD "") = true := by
  unfold pathMatchesAnyTemplate
  rw [List.any_eq_true]
  constructor
  · rintro ⟨t, htf, hm⟩
    rw [List.mem_filter, Bool.and_eq_true, Bool.not_eq_true'] at htf
    exact ⟨t, htf.1, htf.2.1, htf.2.2, hm⟩
  · rintro ⟨t, ht, hta, hbl, hm⟩
    refine ⟨t, ?_, hm⟩
    rw [List.mem_filter, Bool.and_eq_true, Bool.not_eq_true']
    exact ⟨ht, hta, hbl⟩

theorem pathPrecheck_iff (rel : String) (templates : List TodoTemplate) :
    pathPrecheck rel templates = true ↔
      ∃ t ∈ templates,
        (t.branchLevel = false ∨ strTruthy t.applyTo = true) ∧
        strTruthy t.applyTo = true ∧
        minimatchDot rel (t.applyTo.getD "") = true := by
  unfold pathPrecheck
  rw [Bool.or_eq_true, pathMatchesAnyTemplate_iff, pathMatchesAnyTemplate_iff]
  constructor
  · rintro (⟨t, ht, hta, hbl, hm⟩ | ⟨t', ht', hta', _, hm'⟩)
    · exact ⟨t, ht, Or.inl hbl, hta, hm⟩
    · rcases List.mem_map.1 ht' with ⟨t, htf, rfl⟩
      rw [List.mem_filter, Bool.and_eq_true] at htf
      exact ⟨t, htf.1, Or.inr htf.2.2, htf.2.2, hm'⟩
  · rintro ⟨t, ht, _, hta, hm⟩
    rcases hb : t.branchLevel
    · exact Or.inl ⟨t, ht, hta, hb, hm⟩
    · refine Or.inr ⟨{ t with branchLevel := false }, ?_, hta, rfl, hm⟩
      refine List.mem_map.2 ⟨t, List.mem_filter.2 ⟨ht, ?_⟩, rfl⟩
      rw [Bool.and_eq_true]
      exact ⟨hb, hta⟩

/-- C9: the cheap pre-check run by file evaluation before reading content
(`pathMatchesAnyTemplate` over all templates, supplemented with the
branch-level templates that carry a pattern, re-tagged non-branch-level)
returns `true` exactly when some relevant template's `pathPattern`
glob-matches the relative path, where the relevant templates are the
non-branch-level ones plus the branch-level ones carrying a (non-empty)
`pathPattern`; no content argument exists anywhere in the check. -/
theorem pathPrecheck_characterization (rel : String)
    (templates : List TodoTemplate) :
    pathPrecheck rel templates = true ↔
      ∃ t ∈ templates,
        (t.branchLevel = false ∨ strTruthy t.applyTo = true) ∧
        strTruthy t.applyTo = true ∧
        minimatchDot rel (t.applyTo.getD "") = true :=
  pathPrecheck_iff rel templates

/-- A concrete branch-level template carrying a pattern, used to witness
the pre-check characterization. -/
def sampleBranchTemplate : TodoTemplate :=
  { id := "tb", name := "n", description := "d",
    applyTo := some "src/**/*.go", branchLevel := true }

/-- C9 (witness): the pre-check applied to a concrete branch-level template
carrying a pattern. -/
theorem pathPrecheck_characterization_witness :
    pathPrecheck "src/a.go" [sampleBranchTemplate] = true ↔
      ∃ t ∈ [sampleBranchTemplate],
        (t.branchLevel = false ∨ strTruthy t.applyTo = true) ∧
        strTruthy t.applyTo = true ∧
        minimatchDot "src/a.go" (t.applyTo.getD "") = true :=
  pathPrecheck_characterization "src/a.go" _

/-! ### File-evaluation idempotence development (C3) -/

/-- The firing condition of the per-template loop in `createTodosForFile`:
the template has a (truthy) pattern the path glob-matches, and the content
predicates hold. -/
def templateFires (rel content : String) (t : TodoTemplate) : Bool :=
  strTruthy t.applyTo &&
  minimatchDot rel (t.applyTo.getD "") &&
  !(strTruthy t.fileContains && !strContains content (t.fileContains.getD "")) &&
  !(strTruthy t.excludeFileContains && strContains content (t.excludeFileContains.getD ""))

/-- The deterministic instance id scheme: `branch:{templateId}` for
branch-level templates, `{templateId}:{relativePath}` otherwise. -/
def instanceId (rel : String) (t : TodoTemplate) : String :=
  if t.branchLevel then "branch:" ++ t.id else t.id ++ ":" ++ rel

/-- The template's obligation is already recorded in the branch map:
if the template fires on this file, its instance exists (and, for a
branch-level template, already lists this file among its triggers). -/
def settledFor (rel content : String) (bt : BranchTodos) (t : TodoTemplate) : Prop :=
  templateFires rel content t = true →
    ∃ todo, mapFind bt (instanceId rel t) = some todo ∧
      (t.branchLevel = true → rel ∈ todo.triggeringFiles.getD [])

/-- `bt'` keeps every entry of `bt` (possibly with a grown triggering-file
set). -/
def keepsEntries (bt bt' : BranchTodos) : Prop :=
  ∀ k todo, mapFind bt k = some todo →
    ∃ todo', mapFind bt' k = some todo' ∧
      ∀ r ∈ todo.triggeringFiles.getD [], r ∈ todo'.triggeringFiles.getD []

theorem keepsEntries_refl (bt : BranchTodos) : keepsEntries bt bt :=
  fun _ todo h => ⟨todo, h, fun _ hr => hr⟩

theorem keepsEntries_trans {a b c : BranchTodos}
    (h1 : keepsEntries a b) (h2 : keepsEntries b c) : keepsEntries a c := by
  intro k todo h
  obtain ⟨t1, hf1, hm1⟩ := h1 k todo h
  obtain ⟨t2, hf2, hm2⟩ := h2 k t1 hf1
  exact ⟨t2, hf2, fun r hr => hm2 r (hm1 r hr)⟩

theorem templateFires_decompose {rel content : String} {t : TodoTemplate}
    (hf : templateFires rel content t = true) :
    strTruthy t.applyTo = true ∧
    minimatchDot rel (t.applyTo.getD "") = true ∧
    (strTruthy t.fileContains && !strContains content (t.fileContains.getD "")) = false ∧
    (strTruthy t.excludeFileContains && strContains content (t.excludeFileContains.getD "")) = false := by
  unfold templateFires at hf
  simp only [Bool.and_eq_true, Bool.not_eq_true'] at hf
  exact ⟨hf.1.1.1, hf.1.1.2, hf.1.2, hf.2⟩

theorem evalStep_of_not_fires {rel content : String} {t : TodoTemplate}
    (b f : String) (acc : BranchTodos × Bool)
    (hf : templateFires rel content t = false) :
    evalStep b f rel content acc t = acc := by
  unfold templateFires at hf
  unfold evalStep
  rcases hA : strTruthy t.applyTo
  · simp [hA]
  · rcases hB : minimatchDot rel (t.applyTo.getD "")
    · simp [hA, hB]
    · rcases hC : strTruthy t.fileContains && !strContains content (t.fileContains.getD "")
      · rcases hD : strTruthy t.excludeFileContains && strContains content (t.excludeFileContains.getD "")
        · simp [hA, hB, hC, hD] at hf
        · simp [hA, hB, hC, hD]
      · simp [hA, hB, hC]

theorem evalStep_settles (b f rel content : String) (acc : BranchTodos × Bool)
    (t : TodoTemplate) :
    settledFor rel content (evalStep b f rel content acc t).1 t := by
  intro hf
  obtain ⟨hA, hB, hC, hD⟩ := templateFires_decompose hf
  rcases hbl : t.branchLevel
  · rcases hfind : mapFind acc.1 (t.id ++ ":" ++ rel) with _ | todo
    · simp only [evalStep, instanceId, hA, hB, hC, hD, hbl, hfind, Bool.not_true,
        Bool.false_eq_true, if_false, Option.isSome_none, if_true]
      exact ⟨_, mapFind_mapSet_self _ _ _, fun h => h.elim⟩
    · refine ⟨todo, ?_, fun h => by simp at h⟩
      simp only [evalStep, instanceId, hA, hB, hC, hD, hbl, hfind, Bool.not_true,
        Bool.false_eq_true, if_false, Option.isSome_some, if_true]
  · rcases hfind : mapFind acc.1 ("branch:" ++ t.id) with _ | todo
    · simp only [evalStep, instanceId, hA, hB, hC, hD, hbl, hfind, Bool.not_true,
        Bool.false_eq_true, if_false, if_true]
      refine ⟨_, mapFind_mapSet_self _ _ _, fun _ => ?_⟩
      simp
    · rcases hc : (todo.triggeringFiles.getD []).contains rel
      · simp only [evalStep, instanceId, hA, hB, hC, hD, hbl, hfind, hc, Bool.not_true,
          Bool.false_eq_true, if_false, if_true]
        refine ⟨_, mapFind_mapSet_self _ _ _, fun _ => ?_⟩
        simp
      · simp only [evalStep, instanceId, hA, hB, hC, hD, hbl, hfind, hc, Bool.not_true,
          Bool.false_eq_true, if_false, if_true]
        exact ⟨todo, rfl, fun _ => List.mem_of_elem_eq_true hc⟩

theorem evalStep_keeps (b f rel content : String) (acc : BranchTodos × Bool)
    (t : TodoTemplate) :
    keepsEntries acc.1 (evalStep b f rel content acc t).1 := by
  rcases hf : templateFires rel content t
  · rw [evalStep_of_not_fires b f acc hf]
    exact keepsEntries_refl _
  · obtain ⟨hA, hB, hC, hD⟩ := templateFires_decompose hf
    intro k todo hk
    rcases hbl : t.branchLevel
    · rcases hfind : mapFind acc.1 (t.id ++ ":" ++ rel) with _ | todo1
      · simp only [evalStep, hA, hB, hC, hD, hbl, hfind, Bool.not_true,
          Bool.false_eq_true, if_false, Option.isSome_none, if_true]
        by_cases hkid : t.id ++ ":" ++ rel = k
        · rw [hkid] at hfind
          rw [hfind] at hk
          exact absurd hk (by simp)
        · rw [mapFind_mapSet_ne _ _ hkid]
          exact ⟨todo, hk, fun _ hr => hr⟩
      · simp only [evalStep, hA, hB, hC, hD, hbl, hfind, Bool.not_true,
          Bool.false_eq_true, if_false, Option.isSome_some, if_true]
        exact ⟨todo, hk, fun _ hr => hr⟩
    · rcases hfind : mapFind acc.1 ("branch:" ++ t.id) with _ | todo1
      · simp only [evalStep, hA, hB, hC, hD, hbl, hfind, Bool.not_true,
          Bool.false_eq_true, if_false, if_true]
        by_cases hkid : "branch:" ++ t.id = k
        · rw [hkid] at hfind
          rw [hfind] at hk
          exact absurd hk (by simp)
        · rw [mapFind_mapSet_ne _ _ hkid]
          exact ⟨todo, hk, fun _ hr => hr⟩
      · rcases hc : (todo1.triggeringFiles.getD []).contains rel
        · simp only [evalStep, hA, hB, hC, hD, hbl, hfind, hc, Bool.not_true,
            Bool.false_eq_true, if_false, if_true]
          by_cases hkid : "branch:" ++ t.id = k
          · rw [hkid] at hfind
            rw [hfind] at hk
            injection hk with hk'
            subst hk'
            rw [← hkid, mapFind_mapSet_self]
            refine ⟨_, rfl, fun r hr => ?_⟩
            simp only [Option.getD_some]
            exact List.mem_append_left _ hr
          · rw [mapFind_mapSet_ne _ _ hkid]
            exact ⟨todo, hk, fun _ hr => hr⟩
        · simp only [evalStep, hA, hB, hC, hD, hbl, hfind, hc, Bool.not_true,
            Bool.false_eq_true, if_false, if_true]
          exact ⟨todo, hk, fun _ hr => hr⟩

theorem evalFold_keeps (b f rel content : String) (ts : List TodoTemplate)
    (acc : BranchTodos × Bool) :
    keepsEntries acc.1 (ts.foldl (evalStep b f rel content) acc).1 := by
  induction ts generalizing acc with
  | nil => exact keepsEntries_refl _
  | cons t ts ih =>
    rw [List.foldl_cons]
    exact keepsEntries_trans (evalStep_keeps b f rel content acc t) (ih _)

theorem settledFor_mono {rel content : String} {bt bt' : BranchTodos}
    {t : TodoTemplate} (h : settledFor rel content bt t)
    (hk : keepsEntries bt bt') : settledFor rel content bt' t := by
  intro hf
  obtain ⟨todo, hfind, hmem⟩ := h hf
  obtain ⟨todo', hfind', hsub⟩ := hk _ todo hfind
  exact ⟨todo', hfind', fun hb => hsub rel (hmem hb)⟩

theorem evalFold_settles (b f rel content : String) (ts : List TodoTemplate)
    (acc : BranchTodos × Bool) :
    ∀ t ∈ ts, settledFor rel content (ts.foldl (evalStep b f rel content) acc).1 t := by
  induction ts generalizing acc with
  | nil => intro t ht; cases ht
  | cons t0 ts ih =>
    intro t ht
    rw [List.foldl_cons]
    rcases List.mem_cons.1 ht with rfl | hts
    · exact settledFor_mono (evalStep_settles b f rel content acc t)
        (evalFold_keeps b f rel content ts _)
    · exact ih _ t hts

theorem evalStep_of_settled {rel content : String} (b f : String)
    (acc : BranchTodos × Bool) (t : TodoTemplate)
    (h : settledFor rel content acc.1 t) :
    evalStep b f rel content acc t = acc := by
  rcases hf : templateFires rel content t
  · exact evalStep_of_not_fires b f acc hf
  · obtain ⟨todo, hfind, hmem⟩ := h hf
    obtain ⟨hA, hB, hC, hD⟩ := templateFires_decompose hf
    unfold instanceId at hfind
    rcases hbl : t.branchLevel
    · rw [if_neg (by simp [hbl])] at hfind
      simp [evalStep, hA, hB, hC, hD, hbl, hfind]
    · rw [if_pos hbl] at hfind
      have hc : (todo.triggeringFiles.getD []).contains rel = true :=
        List.elem_eq_true_of_mem (hmem hbl)
      simp only [evalStep, hA, hB, hC, hD, hbl, hfind, hc, Bool.not_true,
        Bool.false_eq_true, if_false, if_true]

theorem evalFold_of_settled (b f rel content : String) (ts : List TodoTemplate)
    (bt : BranchTodos) (c : Bool)
    (h : ∀ t ∈ ts, settledFor rel content bt t) :
    ts.foldl (evalStep b f rel content) (bt, c) = (bt, c) := by
  induction ts with
  | nil => rfl
  | cons t0 ts ih =>
    rw [List.foldl_cons, evalStep_of_settled b f (bt, c) t0 (h t0 (by simp))]
    exact ih (fun t ht => h t (List.mem_cons_of_mem _ ht))

theorem evalStep_keys_nodup (b f rel content : String) (acc : BranchTodos × Bool)
    (t : TodoTemplate) (h : (acc.1.map Prod.fst).Nodup) :
    ((evalStep b f rel content acc t).1.map Prod.fst).Nodup := by
  rcases hf : templateFires rel content t
  · rw [evalStep_of_not_fires b f acc hf]; exact h
  · obtain ⟨hA, hB, hC, hD⟩ := templateFires_decompose hf
    rcases hbl : t.branchLevel
    · rcases hfind : mapFind acc.1 (t.id ++ ":" ++ rel) with _ | todo1 <;>
        simp only [evalStep, hA, hB, hC, hD, hbl, hfind, Bool.not_true,
          Bool.false_eq_true, if_false, Option.isSome_none, Option.isSome_some,
          if_true] <;>
        first
          | exact keys_nodup_mapSet _ _ h
          | exact h
    · rcases hfind : mapFind acc.1 ("branch:" ++ t.id) with _ | todo1
      · simp only [evalStep, hA, hB, hC, hD, hbl, hfind, Bool.not_true,
          Bool.false_eq_true, if_false, if_true]
        exact keys_nodup_mapSet _ _ h
      · rcases hc : (todo1.triggeringFiles.getD []).contains rel <;>
          simp only [evalStep, hA, hB, hC, hD, hbl, hfind, hc, Bool.not_true,
            Bool.false_eq_true, if_false, if_true] <;>
          first
            | exact keys_nodup_mapSet _ _ h
            | exact h

theorem evalFold_keys_nodup (b f rel content : String) (ts : List TodoTemplate)
    (acc : BranchTodos × Bool) (h : (acc.1.map Prod.fst).Nodup) :
    ((ts.foldl (evalStep b f rel content) acc).1.map Prod.fst).Nodup := by
  induction ts generalizing acc with
  | nil => exact h
  | cons t ts ih =>
    rw [List.foldl_cons]
    exact ih _ (evalStep_keys_nodup b f rel content acc t h)

theorem templateFires_pathPrecheck {rel content : String} {t : TodoTemplate}
    (templates : List TodoTemplate) (ht : t ∈ templates)
    (hf : templateFires rel content t = true) :
    pathPrecheck rel templates = true := by
  obtain ⟨hA, hB, _, _⟩ := templateFires_decompose hf
  rw [pathPrecheck_iff]
  refine ⟨t, ht, ?_, hA, hB⟩
  rcases hb : t.branchLevel
  · exact Or.inl rfl
  · exact Or.inr hA

theorem createTodos_main_eq (relOf : String → String)
    (readFile : String → Option String) (templates : List TodoTemplate)
    (store : TodoStore) (branch filePath content : String)
    (hbin : isBinaryFile filePath = false)
    (hpre : pathPrecheck (relOf filePath) templates = true)
    (hread : readFile filePath = some content) :
    createTodosForFile relOf readFile templates store branch filePath =
      (mapSet store branch
        (templates.foldl (evalStep branch filePath (relOf filePath) content)
          ((mapFind store branch).getD [], false)).1,
       (templates.foldl (evalStep branch filePath (relOf filePath) content)
          ((mapFind store branch).getD [], false)).2) := by
  simp [createTodosForFile, hbin, hpre, hread]

/-- C3: file evaluation is idempotent.  For a readable non-binary file,
evaluating it a second time against the same templates and branch returns
the unchanged store and reports no mutation (so no persist and no change
notification); and after the first evaluation, every template that fires
on the file has exactly one instance in the branch's collection, keyed by
`{templateId}:{relativePath}` for file-scoped templates and
`branch:{templateId}` for branch-level ones. -/
theorem createTodosForFile_idempotent (relOf : String → String)
    (readFile : String → Option String) (templates : List TodoTemplate)
    (store : TodoStore) (branch filePath content : String)
    (hread : readFile filePath = some content)
    (hbin : isBinaryFile filePath = false)
    (hnd : (((mapFind store branch).getD []).map Prod.fst).Nodup) :
    createTodosForFile relOf readFile templates
        (createTodosForFile relOf readFile templates store branch filePath).1
        branch filePath =
      ((createTodosForFile relOf readFile templates store branch filePath).1,
        false) ∧
    ∀ t ∈ templates, templateFires (relOf filePath) content t = true →
      ((mapFind (createTodosForFile relOf readFile templates store branch
          filePath).1 branch).getD []).countP
        (fun p => p.1 == instanceId (relOf filePath) t) = 1 := by
  rcases hpre : pathPrecheck (relOf filePath) templates
  · have h1 : createTodosForFile relOf readFile templates store branch filePath =
        (store, false) := by
      simp [createTodosForFile, hbin, hpre]
    refine ⟨?_, ?_⟩
    · rw [h1]
      simp [createTodosForFile, hbin, hpre]
    · intro t ht hf
      exact absurd (templateFires_pathPrecheck templates ht hf) (by simp [hpre])
  · have h1 := createTodos_main_eq relOf readFile templates store branch filePath
      content hbin hpre hread
    set F := templates.foldl (evalStep branch filePath (relOf filePath) content)
      ((mapFind store branch).getD [], false) with hF
    have hsettled : ∀ t ∈ templates,
        settledFor (relOf filePath) content F.1 t :=
      evalFold_settles branch filePath (relOf filePath) content templates _
    have hfind2 : mapFind (mapSet store branch F.1) branch = some F.1 :=
      mapFind_mapSet_self _ _ _
    refine ⟨?_, ?_⟩
    · rw [h1]
      rw [createTodos_main_eq relOf readFile templates (mapSet store branch F.1)
        branch filePath content hbin hpre hread]
      rw [hfind2, Option.getD_some,
        evalFold_of_settled branch filePath (relOf filePath) content templates
          F.1 false hsettled,
        mapSet_eq_of_find hfind2]
    · intro t ht hf
      obtain ⟨todo, hfindI, _⟩ := hsettled t ht hf
      have hndF : (F.1.map Prod.fst).Nodup :=
        evalFold_keys_nodup branch filePath (relOf filePath) content templates
          _ hnd
      rw [h1]
      simp only [hfind2, Option.getD_some]
      exact countP_eq_one_of_find hndF hfindI

/-- A concrete file-scoped template used to witness idempotence. -/
def sampleFileTemplate : TodoTemplate :=
  { id := "t1", name := "n", description := "d", applyTo := some "**/*.cls",
    fileContains := some "@AuraEnabled", priority := some "high" }

/-- C3 (witness): idempotence at a concrete matching file and template. -/
theorem createTodosForFile_idempotent_witness :
    createTodosForFile id (fun _ => some "x @AuraEnabled y")
        [sampleFileTemplate]
        (createTodosForFile id (fun _ => some "x @AuraEnabled y")
          [sampleFileTemplate] [] "main" "cls/Foo.cls").1 "main" "cls/Foo.cls" =
      ((createTodosForFile id (fun _ => some "x @AuraEnabled y")
          [sampleFileTemplate] [] "main" "cls/Foo.cls").1, false) :=
  (createTodosForFile_idempotent id (fun _ => some "x @AuraEnabled y")
    [sampleFileTemplate] [] "main" "cls/Foo.cls" "x @AuraEnabled y" rfl
    (by decide) (by decide)).1

/-- A one-branch, no-instance store used to witness the persist-iff-found
equivalences. -/
def emptyMainStore : TodoStore := [("main", [])]

/-- C6 (witness): the persist-iff-found equivalences at a concrete store
with one branch and no matching instance. -/
theorem status_verbs_persist_iff_witness :
    ((completeTodo "T" emptyMainStore "main" "x").2 = true ↔
      ((mapFind emptyMainStore "main").bind
        (fun bt => mapFind bt "x")).isSome = true) ∧
    ((reopenTodo emptyMainStore "main" "x").2 = true ↔
      ((mapFind emptyMainStore "main").bind
        (fun bt => mapFind bt "x")).isSome = true) ∧
    ((ignoreTodo "T" emptyMainStore "main" "x").2 = true ↔
      ((mapFind emptyMainStore "main").bind
        (fun bt => mapFind bt "x")).isSome = true) ∧
    ((unignoreTodo emptyMainStore "main" "x").2 = true ↔
      ((mapFind emptyMainStore "main").bind
        (fun bt => mapFind bt "x")).isSome = true) ∧
    (clearBranchTodos emptyMainStore "main").2 = true :=
  status_verbs_persist_iff "T" emptyMainStore "main" "x"

/-- C10: file evaluation returns immediately on a binary extension
(case-insensitive), leaving the store untouched and reporting no
persist/notify — for EVERY content reader, so file content is irrelevant
and never consulted. -/
theorem createTodosForFile_skips_binary
    (relOf : String → String) (readFile : String → Option String)
    (templates : List TodoTemplate) (store : TodoStore)
    (branch filePath : String) (h : isBinaryFile filePath = true) :
    createTodosForFile relOf readFile templates store branch filePath =
      (store, false) := by
  simp [createTodosForFile, h]

/-- C10 (witness): a `.PNG` file whose path and content would satisfy a
template's predicates is still skipped entirely. -/
theorem createTodosForFile_skips_binary_witness :
    isBinaryFile "assets/logo.PNG" = true ∧
    minimatchDot "assets/logo.PNG" "**" = true ∧
    createTodosForFile id (fun _ => some "@AuraEnabled")
      [{ id := "t1", name := "n", description := "d", applyTo := some "**",
         fileContains := some "@AuraEnabled" }] [] "main" "assets/logo.PNG" =
      ([], false) :=
  ⟨by decide, by decide,
    createTodosForFile_skips_binary id (fun _ => some "@AuraEnabled") _ _ _ _
      (by decide)⟩

/-! ### Branch-level evaluation development (C4) -/

theorem string_append_left_cancel {s a b : String} (h : s ++ a = s ++ b) :
    a = b := by
  cases s with | mk sd =>
  cases a with | mk ad =>
  cases b with | mk bd =>
  have h2 : sd ++ ad = sd ++ bd := congrArg String.data h
  exact congrArg String.mk (List.append_cancel_left h2)

theorem list_any_congr {α : Type} {l : List α} {p q : α → Bool}
    (h : ∀ x ∈ l, p x = q x) : l.any p = l.any q := by
  induction l with
  | nil => rfl
  | cons x xs ih =>
    simp only [List.any_cons, h x (List.mem_cons_self x xs),
      ih (fun y hy => h y (List.mem_cons_of_mem x hy))]

/-- The effect of one `createBranchLevelTodos` loop iteration on its own
`branch:{templateId}` entry, as a function of that entry's previous value
(mirrors `blStep`, which touches no other key). -/
def blExpected (relOf : String → String) (readFile : String → Option String)
    (changedFiles : List String) (branch : String) (t : TodoTemplate)
    (old : Option TodoInstance) : Option TodoInstance :=
  match old with
  | some todo =>
    if strTruthy t.applyTo then
      let newTriggeringFiles := findTriggeringFiles relOf readFile changedFiles t
      if newTriggeringFiles.length > 0 then
        let existingFiles := todo.triggeringFiles.getD []
        let allFiles := jsSetDedup (existingFiles ++ newTriggeringFiles)
        if allFiles.length ≠ existingFiles.length then
          some { todo with triggeringFiles := some allFiles }
        else some todo
      else some todo
    else some todo
  | none =>
    let triggeringFiles : Option (List String) :=
      if strTruthy t.applyTo
      then some (findTriggeringFiles relOf readFile changedFiles t) else none
    if strTruthy t.applyTo && (triggeringFiles.getD []).isEmpty then none
    else
      some
        { id := "branch:" ++ t.id, templateId := t.id, name := t.name,
          description := t.description, priority := jsStrOr t.priority "medium",
          completed := false, ignored := false, branch := branch,
          branchLevel := true, triggeringFiles := triggeringFiles,
          aiInstruction := t.aiInstruction }

/-- Whether one `createBranchLevelTodos` loop iteration counts as a
mutation: it created the aggregate, or its deduplicated triggering-file
union actually grew. -/
def blStepChanged (relOf : String → String) (readFile : String → Option String)
    (changedFiles : List String) (t : TodoTemplate)
    (old : Option TodoInstance) : Bool :=
  match old with
  | some todo =>
    if strTruthy t.applyTo then
      let newTriggeringFiles := findTriggeringFiles relOf readFile changedFiles t
      if newTriggeringFiles.length > 0 then
        decide ((jsSetDedup (todo.triggeringFiles.getD [] ++ newTriggeringFiles)).length ≠
          (todo.triggeringFiles.getD []).length)
      else false
    else false
  | none =>
    !(strTruthy t.applyTo &&
      ((if strTruthy t.applyTo
        then some (findTriggeringFiles relOf readFile changedFiles t)
        else (none : Option (List String))).getD []).isEmpty)

theorem blStep_find_self (relOf : String → String)
    (readFile : String → Option String) (changedFiles : List String)
    (branch : String) (acc : BranchTodos × Bool) (t : TodoTemplate) :
    mapFind (blStep relOf readFile changedFiles branch acc t).1
        ("branch:" ++ t.id) =
      blExpected relOf readFile changedFiles branch t
        (mapFind acc.1 ("branch:" ++ t.id)) := by
  rcases hfind : mapFind acc.1 ("branch:" ++ t.id) with _ | todo <;>
    simp only [blStep, blExpected, hfind] <;>
    split_ifs <;>
    first
      | exact hfind
      | rw [mapFind_mapSet_self]

theorem blStep_find_ne (relOf : String → String)
    (readFile : String → Option String) (changedFiles : List String)
    (branch : String) (acc : BranchTodos × Bool) (t : TodoTemplate)
    {k : String} (hne : k ≠ "branch:" ++ t.id) :
    mapFind (blStep relOf readFile changedFiles branch acc t).1 k =
      mapFind acc.1 k := by
  rcases hfind : mapFind acc.1 ("branch:" ++ t.id) with _ | todo <;>
    simp only [blStep, hfind] <;>
    split_ifs <;>
    first
      | rfl
      | exact mapFind_mapSet_ne _ _ (fun h => hne h.symm)

theorem blStep_snd (relOf : String → String)
    (readFile : String → Option String) (changedFiles : List String)
    (branch : String) (acc : BranchTodos × Bool) (t : TodoTemplate) :
    (blStep relOf readFile changedFiles branch acc t).2 =
      (acc.2 || blStepChanged relOf readFile changedFiles t
        (mapFind acc.1 ("branch:" ++ t.id))) := by
  rcases hfind : mapFind acc.1 ("branch:" ++ t.id) with _ | todo <;>
    simp only [blStep, blStepChanged, hfind] <;>
    split_ifs <;> simp_all

theorem blFold_characterization (relOf : String → String)
    (readFile : String → Option String) (changedFiles : List String)
    (branch : String) (ts : List TodoTemplate) (acc : BranchTodos × Bool)
    (hnd : (ts.map TodoTemplate.id).Nodup) :
    (∀ t ∈ ts,
      mapFind (ts.foldl (blStep relOf readFile changedFiles branch) acc).1
          ("branch:" ++ t.id) =
        blExpected relOf readFile changedFiles branch t
          (mapFind acc.1 ("branch:" ++ t.id))) ∧
    ((ts.foldl (blStep relOf readFile changedFiles branch) acc).2 =
      (acc.2 || ts.any (fun t => blStepChanged relOf readFile changedFiles t
        (mapFind acc.1 ("branch:" ++ t.id))))) ∧
    (∀ k, (∀ t ∈ ts, k ≠ "branch:" ++ t.id) →
      mapFind (ts.foldl (blStep relOf readFile changedFiles branch) acc).1 k =
        mapFind acc.1 k) := by
  induction ts generalizing acc with
  | nil =>
    refine ⟨fun t ht => absurd ht (List.not_mem_nil t), by simp, fun k _ => rfl⟩
  | cons t0 ts ih =>
    simp only [List.map_cons, List.nodup_cons] at hnd
    obtain ⟨ih1, ih2, ih3⟩ := ih (blStep relOf readFile changedFiles branch acc t0) hnd.2
    have hid : ∀ t ∈ ts, t.id ≠ t0.id := by
      intro t ht h
      exact hnd.1 (h ▸ List.mem_map_of_mem TodoTemplate.id ht)
    refine ⟨?_, ?_, ?_⟩
    · intro t ht
      rw [List.foldl_cons]
      rcases List.mem_cons.1 ht with rfl | hts
      · rw [ih3 ("branch:" ++ t.id) ?_, blStep_find_self]
        intro t' ht' h
        exact hid t' ht' (string_append_left_cancel h).symm
      · rw [ih1 t hts, blStep_find_ne relOf readFile changedFiles branch acc t0
          (fun h => hid t hts (string_append_left_cancel h))]
    · rw [List.foldl_cons, ih2, blStep_snd, Bool.or_assoc, List.any_cons]
      congr 1
      congr 1
      refine list_any_congr (fun t ht => ?_)
      rw [blStep_find_ne relOf readFile changedFiles branch acc t0
        (fun h => hid t ht (string_append_left_cancel h))]
    · intro k hk
      rw [List.foldl_cons,
        ih3 k (fun t ht => hk t (List.mem_cons_of_mem t0 ht)),
        blStep_find_ne relOf readFile changedFiles branch acc t0
          (hk t0 (List.mem_cons_self t0 ts))]

/-- C4: branch-level evaluation, characterized (over template sets with
distinct ids).  For every branch-level template without a pattern, an
instance keyed `branch:{templateId}` exists unconditionally after the run;
for every branch-level template with a pattern, a previously absent
instance stays absent when no candidate file matches; a previously present
instance is only refreshed by unioning the newly matching relative paths
into its deduplicated `triggeringFiles` (unchanged when nothing new
matched); and the run reports a mutation exactly when some processed
template created its instance or grew its triggering-file set. -/
theorem createBranchLevelTodos_spec (relOf : String → String)
    (readFile : String → Option String) (changedFiles : List String)
    (templates : List TodoTemplate) (store : TodoStore) (branch : String)
    (hnd : (templates.map TodoTemplate.id).Nodup) :
    (∀ t ∈ templates, t.branchLevel = true → strTruthy t.applyTo = false →
      (mapFind ((mapFind (createBranchLevelTodos relOf readFile changedFiles
          templates store branch).1 branch).getD [])
        ("branch:" ++ t.id)).isSome = true) ∧
    (∀ t ∈ templates, t.branchLevel = true → strTruthy t.applyTo = true →
      findTriggeringFiles relOf readFile changedFiles t = [] →
      mapFind ((mapFind store branch).getD []) ("branch:" ++ t.id) = none →
      mapFind ((mapFind (createBranchLevelTodos relOf readFile changedFiles
          templates store branch).1 branch).getD [])
        ("branch:" ++ t.id) = none) ∧
    (∀ t ∈ templates, t.branchLevel = true → strTruthy t.applyTo = true →
      ∀ todo, mapFind ((mapFind store branch).getD [])
          ("branch:" ++ t.id) = some todo →
      mapFind ((mapFind (createBranchLevelTodos relOf readFile changedFiles
          templates store branch).1 branch).getD [])
          ("branch:" ++ t.id) =
        some (if 0 < (findTriggeringFiles relOf readFile changedFiles t).length ∧
                (jsSetDedup (todo.triggeringFiles.getD [] ++
                  findTriggeringFiles relOf readFile changedFiles t)).length ≠
                  (todo.triggeringFiles.getD []).length
              then { todo with triggeringFiles := some (jsSetDedup
                (todo.triggeringFiles.getD [] ++
                  findTriggeringFiles relOf readFile changedFiles t)) }
              else todo)) ∧
    ((createBranchLevelTodos relOf readFile changedFiles templates store
        branch).2 =
      (templates.filter (fun t => t.branchLevel || !strTruthy t.applyTo)).any
        (fun t => blStepChanged relOf readFile changedFiles t
          (mapFind ((mapFind store branch).getD []) ("branch:" ++ t.id)))) := by
  have hndBL : ((templates.filter
      (fun t => t.branchLevel || !strTruthy t.applyTo)).map
        TodoTemplate.id).Nodup :=
    hnd.sublist ((List.filter_sublist templates).map TodoTemplate.id)
  obtain ⟨c1, c2, c3⟩ := blFold_characterization relOf readFile changedFiles
    branch (templates.filter (fun t => t.branchLevel || !strTruthy t.applyTo))
    ((mapFind store branch).getD [], false) hndBL
  have hmain : createBranchLevelTodos relOf readFile changedFiles templates
      store branch =
    (mapSet store branch
      ((templates.filter (fun t => t.branchLevel || !strTruthy t.applyTo)).foldl
        (blStep relOf readFile changedFiles branch)
        ((mapFind store branch).getD [], false)).1,
     ((templates.filter (fun t => t.branchLevel || !strTruthy t.applyTo)).foldl
        (blStep relOf readFile changedFiles branch)
        ((mapFind store branch).getD [], false)).2) := rfl
  refine ⟨?_, ?_, ?_, ?_⟩
  · intro t ht hbl hta
    have htBL : t ∈ templates.filter
        (fun t => t.branchLevel || !strTruthy t.applyTo) :=
      List.mem_filter.2 ⟨ht, by simp [hbl]⟩
    rw [hmain]
    simp only [mapFind_mapSet_self, Option.getD_some]
    rw [c1 t htBL]
    rcases hold : mapFind ((mapFind store branch).getD [])
        ("branch:" ++ t.id) with _ | todo <;>
      simp [blExpected, hold, hta]
  · intro t ht hbl hta htf hold
    have htBL : t ∈ templates.filter
        (fun t => t.branchLevel || !strTruthy t.applyTo) :=
      List.mem_filter.2 ⟨ht, by simp [hbl]⟩
    rw [hmain]
    simp only [mapFind_mapSet_self, Option.getD_some]
    rw [c1 t htBL]
    simp [blExpected, hold, hta, htf]
  · intro t ht hbl hta todo hold
    have htBL : t ∈ templates.filter
        (fun t => t.branchLevel || !strTruthy t.applyTo) :=
      List.mem_filter.2 ⟨ht, by simp [hbl]⟩
    rw [hmain]
    simp only [mapFind_mapSet_self, Option.getD_some]
    rw [c1 t htBL]
    by_cases h1 : 0 < (findTriggeringFiles relOf readFile changedFiles t).length
    · by_cases h2 : (jsSetDedup (todo.triggeringFiles.getD [] ++
          findTriggeringFiles relOf readFile changedFiles t)).length ≠
            (todo.triggeringFiles.getD []).length
      · simp [blExpected, hold, hta, h1, h2]
      · simp [blExpected, hold, hta, h1, h2]
    · simp [blExpected, hold, hta, h1]
  · rw [hmain]
    simpa using c2

/-- A concrete branch-level template without a pattern, used to witness
branch-level evaluation. -/
def samplePureBranchTemplate : TodoTemplate :=
  { id := "tp", name := "np", description := "dp", branchLevel := true }

/-- C4 (witness): with no candidate files, the pattern-less branch-level
template gets its unconditional instance while the pattern-carrying one
creates nothing. -/
theorem createBranchLevelTodos_spec_witness :
    (mapFind ((mapFind (createBranchLevelTodos id (fun _ => none) []
        [samplePureBranchTemplate, sampleBranchTemplate] [] "main").1
          "main").getD [])
      ("branch:" ++ samplePureBranchTemplate.id)).isSome = true ∧
    mapFind ((mapFind (createBranchLevelTodos id (fun _ => none) []
        [samplePureBranchTemplate, sampleBranchTemplate] [] "main").1
          "main").getD [])
      ("branch:" ++ sampleBranchTemplate.id) = none :=
  ⟨(createBranchLevelTodos_spec id (fun _ => none) []
      [samplePureBranchTemplate, sampleBranchTemplate] [] "main"
      (by decide)).1 samplePureBranchTemplate (by decide) rfl rfl,
   (createBranchLevelTodos_spec id (fun _ => none) []
      [samplePureBranchTemplate, sampleBranchTemplate] [] "main"
      (by decide)).2.1 sampleBranchTemplate (by decide) rfl rfl rfl rfl⟩

/-! ### Persistence round-trip development (C7) -/

/-- The round-trip relation between an original instance entry and its
restored counterpart: same key, same status fields, timestamps,
triggering-file set and file path, while the display fields are re-derived
from the template found for the original's `templateId`. -/
def roundTripMatch (templates : List TodoTemplate)
    (o l : String × TodoInstance) : Prop :=
  l.1 = o.1 ∧
  l.2.completed = o.2.completed ∧ l.2.completedAt = o.2.completedAt ∧
  l.2.ignored = o.2.ignored ∧ l.2.ignoredAt = o.2.ignoredAt ∧
  l.2.triggeringFiles = o.2.triggeringFiles ∧
  l.2.filePath = o.2.filePath ∧
  ∃ tpl, templates.find? (fun tp => tp.id == o.2.templateId) = some tpl ∧
    l.2.templateId = tpl.id ∧ l.2.name = tpl.name ∧
    l.2.description = tpl.description ∧
    l.2.priority = jsStrOr tpl.priority "medium" ∧
    l.2.aiInstruction = tpl.aiInstruction

theorem loadState_acc (relOf : String → String)
    (templates : List TodoTemplate) (state : TodoState) (acc : TodoStore)
    (hdisj : ∀ b ∈ state.map Prod.fst, b ∉ acc.map Prod.fst)
    (hnd : (state.map Prod.fst).Nodup) :
    loadState relOf templates acc state =
      acc ++ state.map (fun p => (p.1, loadBranch relOf templates p.1 p.2)) := by
  induction state generalizing acc with
  | nil => simp [loadState]
  | cons p ps ih =>
    obtain ⟨b, btodos⟩ := p
    simp only [List.map_cons, List.nodup_cons, List.mem_cons] at hdisj hnd
    have hstep : loadState relOf templates acc ((b, btodos) :: ps) =
        loadState relOf templates
          (mapSet acc b (loadBranch relOf templates b btodos)) ps := rfl
    rw [hstep, mapSet_eq_append_of_not_mem _ (hdisj b (Or.inl rfl)),
      ih (acc ++ [(b, loadBranch relOf templates b btodos)]) ?_ hnd.2]
    · simp
    · intro b' hb'
      simp only [List.map_append, List.mem_append, List.map_cons,
        List.map_nil, List.mem_singleton, not_or]
      exact ⟨hdisj b' (Or.inr hb'), fun h => hnd.1 (h ▸ hb')⟩

theorem loadBranch_saved (relOf : String → String)
    (templates : List TodoTemplate) (b : String) (bts : BranchTodos)
    (hcov : ∀ q ∈ bts,
      (templates.find? (fun tp => tp.id == q.2.templateId)).isSome = true) :
    List.Forall₂ (roundTripMatch templates) bts
      (loadBranch relOf templates b (bts.map (fun q => (q.1, persistTodo q.2)))) := by
  induction bts with
  | nil => exact List.Forall₂.nil
  | cons q qs ih =>
    obtain ⟨todoId, todo⟩ := q
    have hq := hcov (todoId, todo) (List.mem_cons_self _ _)
    rcases hfind : templates.find? (fun tp => tp.id == todo.templateId)
        with _ | tpl
    · rw [hfind] at hq
      exact absurd hq (by simp)
    · have hstep : loadBranch relOf templates b
          (((todoId, todo) :: qs).map (fun q => (q.1, persistTodo q.2))) =
          (todoId, restoreInstance relOf b todoId (persistTodo todo) tpl) ::
            loadBranch relOf templates b
              (qs.map (fun q => (q.1, persistTodo q.2))) := by
        simp [loadBranch, persistTodo, hfind]
      rw [hstep]
      refine List.Forall₂.cons ?_
        (ih (fun q hq => hcov q (List.mem_cons_of_mem _ hq)))
      refine ⟨rfl, rfl, rfl, rfl, rfl, rfl, rfl, tpl, hfind, rfl, rfl, rfl,
        rfl, rfl⟩

/-- C7: persistence round-trip.  For a store with distinct branch keys
whose instances all reference templates present in the current set,
`saveState` followed by `loadState` (into an empty store) reproduces an
equivalent store: the same branches in order, the same instance ids, the
same completed/ignored statuses, `completedAt`/`ignoredAt` timestamps,
`triggeringFiles` sets and file paths, while the display fields `name`,
`description` and `priority` (and `aiInstruction`) are re-derived from the
template found for each instance's `templateId`. -/
theorem saveState_loadState_roundtrip (relOf : String → String)
    (templates : List TodoTemplate) (store : TodoStore)
    (hbr : (store.map Prod.fst).Nodup)
    (hcov : ∀ p ∈ store, ∀ q ∈ p.2,
      (templates.find? (fun tp => tp.id == q.2.templateId)).isSome = true) :
    List.Forall₂ (fun po pl => pl.1 = po.1 ∧
        List.Forall₂ (roundTripMatch templates) po.2 pl.2)
      store (loadState relOf templates [] (saveState store)) := by
  have hkeys : (saveState store).map Prod.fst = store.map Prod.fst := by
    unfold saveState
    rw [List.map_map]
    rfl
  rw [loadState_acc relOf templates (saveState store) [] (by simp)
    (by rw [hkeys]; exact hbr)]
  rw [List.nil_append]
  unfold saveState
  rw [List.map_map]
  rw [List.forall₂_map_right_iff]
  rw [List.forall₂_same]
  intro p hp
  exact ⟨rfl, loadBranch_saved relOf templates p.1 p.2 (hcov p hp)⟩

/-- A concrete stored instance (with stale display fields) used to witness
the round-trip. -/
def sampleStoredInstance : TodoInstance :=
  { id := "t1:cls/Foo.cls", templateId := "t1", name := "old-name",
    description := "old-desc", filePath := some "cls/Foo.cls",
    relativePath := some "cls/Foo.cls", priority := "low", completed := true,
    completedAt := some "2024-02-02", ignored := false, ignoredAt := none,
    branch := "main" }

/-- C7 (witness): the round-trip at a concrete one-branch store. -/
theorem saveState_loadState_roundtrip_witness :
    List.Forall₂ (fun po pl => pl.1 = po.1 ∧
        List.Forall₂ (roundTripMatch [sampleFileTemplate]) po.2 pl.2)
      [("main", [("t1:cls/Foo.cls", sampleStoredInstance)])]
      (loadState id [sampleFileTemplate] []
        (saveState [("main", [("t1:cls/Foo.cls", sampleStoredInstance)])])) :=
  saveState_loadState_roundtrip id [sampleFileTemplate]
    [("main", [("t1:cls/Foo.cls", sampleStoredInstance)])] (by decide)
    (by decide)

/-! ### Orphan pruning (C8) -/

theorem loadBranch_resolves (relOf : String → String)
    (templates : List TodoTemplate) (b : String)
    (btodos : List (String × PersistedTodo)) :
    ∀ q ∈ loadBranch relOf templates b btodos,
      ∃ tpl ∈ templates, tpl.id = q.2.templateId := by
  intro q hq
  unfold loadBranch at hq
  rcases List.mem_filterMap.1 hq with ⟨q0, _, hsome⟩
  rcases hfind : templates.find? (fun tp => tp.id == q0.2.templateId)
      with _ | tpl
  · rw [hfind] at hsome
    exact absurd hsome (by simp)
  · rw [hfind] at hsome
    have hsome' : (q0.1, restoreInstance relOf b q0.1 q0.2 tpl) = q := by
      simpa using hsome
    refine ⟨tpl, List.mem_of_find?_eq_some hfind, ?_⟩
    rw [← hsome']
    rfl

theorem loadState_mem_prop (relOf : String → String)
    (templates : List TodoTemplate) (P : String × TodoInstance → Prop)
    (state : TodoState) (acc : TodoStore)
    (hacc : ∀ p ∈ acc, ∀ q ∈ p.2, P q)
    (hstate : ∀ pb ∈ state,
      ∀ q ∈ loadBranch relOf templates pb.1 pb.2, P q) :
    ∀ p ∈ loadState relOf templates acc state, ∀ q ∈ p.2, P q := by
  induction state generalizing acc with
  | nil => exact hacc
  | cons pb ps ih =>
    have hstep : loadState relOf templates acc (pb :: ps) =
        loadState relOf templates
          (mapSet acc pb.1 (loadBranch relOf templates pb.1 pb.2)) ps := rfl
    rw [hstep]
    refine ih _ ?_ (fun pb' hpb' => hstate pb' (List.mem_cons_of_mem _ hpb'))
    intro p hp q hq
    rcases mem_mapSet hp with rfl | hpacc
    · exact hstate pb (List.mem_cons_self _ _) q hq
    · exact hacc p hpacc q hq

/-- C8 (amended): loading persisted state drops every record whose
`templateId` no longer resolves in the current template set — every
instance present after a state load references an existing template — but
reloading templates does NOT prune the in-memory store: `loadTemplates`
replaces the template list and leaves `todos` untouched, so in-memory
instances referencing deleted templates survive until the next state
load. -/
theorem loadState_drops_orphans_loadTemplates_no_prune :
    (∀ (relOf : String → String) (templates : List TodoTemplate)
        (state : TodoState),
      ∀ p ∈ loadState relOf templates [] state, ∀ q ∈ p.2,
        ∃ tpl ∈ templates, tpl.id = q.2.templateId) ∧
    (∀ (s : ManagerState) (cfg : Option (Option (List TodoTemplate))),
      ((loadTemplatesM s cfg).1).todos = s.todos) := by
  constructor
  · intro relOf templates state
    exact loadState_mem_prop relOf templates _ state [] (by intro p hp; cases hp)
      (fun pb _ => loadBranch_resolves relOf templates pb.1 pb.2)
  · intro s cfg
    rfl

/-- A persisted record referencing the sample template, used to witness
state loading. -/
def samplePersisted : PersistedTodo :=
  { completed := true, completedAt := some "2024-02-02", ignored := false,
    ignoredAt := none, filePath := some "cls/Foo.cls", templateId := "t1",
    branchLevel := false, triggeringFiles := none }

/-- C8 (witness): the amended theorem applied at a concrete loaded record
and a concrete template reload. -/
theorem loadState_drops_orphans_witness :
    (∃ tpl ∈ [sampleFileTemplate],
      tpl.id = (restoreInstance id "main" "t1:cls/Foo.cls" samplePersisted
        sampleFileTemplate).templateId) ∧
    ((loadTemplatesM { templates := [sampleFileTemplate], todos := [] }
        none).1).todos = ([] : TodoStore) :=
  ⟨loadState_drops_orphans_loadTemplates_no_prune.1 id [sampleFileTemplate]
      [("main", [("t1:cls/Foo.cls", samplePersisted)])]
      ("main", [("t1:cls/Foo.cls",
        restoreInstance id "main" "t1:cls/Foo.cls" samplePersisted
          sampleFileTemplate)]) (by decide)
      ("t1:cls/Foo.cls",
        restoreInstance id "main" "t1:cls/Foo.cls" samplePersisted
          sampleFileTemplate) (by decide),
   loadState_drops_orphans_loadTemplates_no_prune.2
     { templates := [sampleFileTemplate], todos := [] } none⟩

/-- The template that will be removed by the reload in the C8
counterexample. -/
def goneTemplate : TodoTemplate :=
  { id := "gone", name := "n", description := "d", applyTo := some "**" }

/-- The template surviving the reload in the C8 counterexample. -/
def keptTemplate : TodoTemplate :=
  { id := "kept", name := "n2", description := "d2", applyTo := some "**" }

/-- The in-memory instance referencing the removed template. -/
def orphanInstance : TodoInstance :=
  { id := "gone:a.cls", templateId := "gone", name := "n", description := "d",
    filePath := some "a.cls", relativePath := some "a.cls",
    priority := "medium", completed := false, ignored := false,
    branch := "main" }

/-- C8 (counterexample): reloading templates with a configuration that no
longer contains template `gone` succeeds and replaces the template set,
yet the in-memory instance referencing `gone` is still present afterwards
— reloading templates does not remove orphaned instances from the
in-memory store, contradicting the claim's second half. -/
theorem loadTemplates_no_prune_cex :
    (let s0 : ManagerState :=
      { templates := [goneTemplate],
        todos := [("main", [("gone:a.cls", orphanInstance)])] }
     let r := loadTemplatesM s0 (some (some [keptTemplate]))
     r.2 = true ∧ r.1.templates = [keptTemplate] ∧
     (∀ tpl ∈ r.1.templates, tpl.id ≠ "gone") ∧
     mapFind ((mapFind r.1.todos "main").getD []) "gone:a.cls" =
       some orphanInstance ∧
     orphanInstance.templateId = "gone") := by decide

end DeveloperTodos
